import Mathlib

/-!
Verification of the anubis-solver challenge-resolution engine.

The Rust sources (src/lib.rs, src/main.rs, src/bin/proxy.rs) are embedded
shallowly: pure functions become Lean functions, the parallel proof-of-work
search becomes an explicit fuel-bounded stride loop per worker, u64
arithmetic is Nat with an explicit bound, and the SHA-256 digest function
(the external sha2 crate) is an abstract parameter of type String → List Nat
returning the digest bytes.
-/

/-- Largest value of a u64 (2^64 - 1). -/
def U64_MAX : Nat := 18446744073709551615

/-- u64 checked_add: some (a+b) unless the sum would overflow. -/
def checkedAdd (a b : Nat) : Option Nat :=
  if a + b ≤ U64_MAX then some (a + b) else none

/-- Lowercase hex digit for a nibble, as produced by the hex crate. -/
def hexCharLower (n : Nat) : Char :=
  if n < 10 then Char.ofNat (48 + n) else Char.ofNat (87 + n)

/-- Two lowercase hex digits for one byte. -/
def hexByte (b : Nat) : String :=
  String.mk [hexCharLower (b / 16 % 16), hexCharLower (b % 16)]

/-- Models hex::encode: lowercase hex of a byte sequence. -/
def hexEncode (bs : List Nat) : String :=
  String.join (bs.map hexByte)

/-- UTF-8 encoding of one character as a list of byte values. -/
def utf8Bytes (c : Char) : List Nat :=
  let n := c.toNat
  if n < 128 then [n]
  else if n < 2048 then [192 + n / 64, 128 + n % 64]
  else if n < 65536 then [224 + n / 4096, 128 + n / 64 % 64, 128 + n % 64]
  else [240 + n / 262144, 128 + n / 4096 % 64, 128 + n / 64 % 64, 128 + n % 64]

/-- UTF-8 byte values of a string. -/
def strBytes (s : String) : List Nat :=
  s.data.flatMap utf8Bytes

/-- Bytes the urlencoding crate leaves unescaped: ASCII alphanumerics and - . _ ~. -/
def isUrlSafe (b : Nat) : Bool :=
  (65 ≤ b && b ≤ 90) || (97 ≤ b && b ≤ 122) || (48 ≤ b && b ≤ 57) ||
    b == 45 || b == 46 || b == 95 || b == 126

/-- Uppercase hex digit for a nibble, as used in percent-escapes. -/
def hexCharUpper (n : Nat) : Char :=
  if n < 10 then Char.ofNat (48 + n) else Char.ofNat (55 + n)

/-- Percent-escape of one byte: a percent sign and two uppercase hex digits. -/
def percentEscape (b : Nat) : String :=
  String.mk [Char.ofNat 37, hexCharUpper (b / 16 % 16), hexCharUpper (b % 16)]

/-- Models urlencoding::encode: percent-encode every byte outside the
unreserved set. -/
def urlencode (s : String) : String :=
  String.join ((strBytes s).map fun b =>
    if isUrlSafe b then String.mk [Char.ofNat b] else percentEscape b)

/-- Handles both old format (plain string) and new format (object); from lib.rs. -/
structure ChallengeData where
  id : Option String
  random_data : String
  deriving DecidableEq, Repr

/-- Challenge rules: difficulty and declared algorithm; from lib.rs. -/
structure AnubisChallengeRules where
  difficulty : Nat
  algorithm : String
  deriving DecidableEq, Repr

/-- A parsed Anubis challenge; from lib.rs. -/
structure AnubisChallenge where
  challenge : ChallengeData
  rules : AnubisChallengeRules
  deriving DecidableEq, Repr

/-- The solver's result record; from lib.rs. -/
structure SolverResult where
  hash : String
  data : String
  difficulty : Nat
  nonce : Option Nat
  deriving DecidableEq, Repr

/-- Effective algorithm, defaulting to "fast" when the declared one is empty;
embeds AnubisChallenge::algorithm. -/
def AnubisChallenge.algorithm (c : AnubisChallenge) : String :=
  if c.rules.algorithm = "" then "fast" else c.rules.algorithm

/-- The id query parameter when the challenge has an id, else the empty
string; embeds AnubisChallenge::id_param. -/
def AnubisChallenge.id_param (c : AnubisChallenge) : String :=
  match c.challenge.id with
  | some i => "&id=" ++ i
  | none => ""

/-- Checks that a digest has the required leading zero nibbles; embeds
check_difficulty_fast from lib.rs. Digest bytes are Nat values; the shift
by 4 extracts the high nibble. -/
def check_difficulty_fast (hash : List Nat) (difficulty : Nat) : Bool :=
  let full_bytes := difficulty / 2
  if hash.length < full_bytes then false
  else if (hash.take full_bytes).any (fun b => b != 0) then false
  else if difficulty % 2 != 0 then
    if hash.length ≤ full_bytes then false
    else if (hash.getD full_bytes 0) >>> 4 != 0 then false
    else true
  else true

/-- The message a proof-of-work attempt hashes: payload followed by the
decimal rendering of the nonce (itoa in the source). -/
def powMessage (data : String) (nonce : Nat) : String :=
  data ++ toString nonce

/-- Digest of one proof-of-work attempt for an abstract digest function. -/
def powDigest (sha256 : String → List Nat) (data : String) (nonce : Nat) : List Nat :=
  sha256 (powMessage data nonce)

/-- The result the winning worker publishes (lib.rs lines 309-314). -/
def powResult (sha256 : String → List Nat) (data : String) (difficulty nonce : Nat) :
    SolverResult :=
  { hash := hexEncode (powDigest sha256 data nonce)
    data := data
    difficulty := difficulty
    nonce := some nonce }

/-- The fallback recomputation used when the winner's own value was lost to
scheduling (lib.rs lines 339-356): rebuild the buffer from the payload and
the published winning nonce and hash it again. -/
def fallbackResult (sha256 : String → List Nat) (data : String)
    (difficulty winning_nonce : Nat) : SolverResult :=
  { hash := hexEncode (sha256 (data ++ toString winning_nonce))
    data := data
    difficulty := difficulty
    nonce := some winning_nonce }

/-- One worker of the parallel search: starting nonce, stride W, hash and
test each attempt, advance by checked_add, exit on overflow. The fuel
argument only bounds recursion depth; with fuel above U64_MAX the loop
always ends by success or overflow first, matching the source loop. -/
def workerLoop (sha256 : String → List Nat) (data : String) (difficulty W nonce : Nat) :
    Nat → Option Nat
  | 0 => none
  | fuel + 1 =>
    if check_difficulty_fast (powDigest sha256 data nonce) difficulty then
      some nonce
    else
      match checkedAdd nonce W with
      | some next_nonce => workerLoop sha256 data difficulty W next_nonce fuel
      | none => none

/-- The parallel proof-of-work search of lib.rs, embedded deterministically:
worker k scans nonces k, k+W, k+2W, ... (thread_id cast to u64); the first
worker holding a solution publishes it; if no worker produces one the search
fails. W is rayon::current_num_threads. -/
def solve_challenge_native (sha256 : String → List Nat) (W : Nat)
    (c : AnubisChallenge) : Except String SolverResult :=
  match (List.range W).findSome?
      (fun k => workerLoop sha256 c.challenge.random_data c.rules.difficulty W
        (k % (U64_MAX + 1)) (U64_MAX + 1)) with
  | some n => .ok (powResult sha256 c.challenge.random_data c.rules.difficulty n)
  | none => .error "Solver finished without finding a solution."

/-- Preact: SHA256(randomData); embeds solve_preact_challenge. -/
def solve_preact_challenge (sha256 : String → List Nat) (c : AnubisChallenge) :
    SolverResult :=
  { hash := hexEncode (sha256 c.challenge.random_data)
    data := c.challenge.random_data
    difficulty := c.rules.difficulty
    nonce := none }

/-- Metarefresh: echo raw randomData; embeds solve_metarefresh_challenge. -/
def solve_metarefresh_challenge (c : AnubisChallenge) : SolverResult :=
  { hash := c.challenge.random_data
    data := c.challenge.random_data
    difficulty := c.rules.difficulty
    nonce := none }

/-- Algorithm dispatch of solve_challenge in lib.rs (the progress callback
performs no state change and is omitted). -/
def solve_challenge (sha256 : String → List Nat) (W : Nat) (c : AnubisChallenge) :
    Except String SolverResult :=
  if c.algorithm = "preact" then .ok (solve_preact_challenge sha256 c)
  else if c.algorithm = "metarefresh" then .ok (solve_metarefresh_challenge c)
  else solve_challenge_native sha256 W c

/-- The fixed well-known submission path from lib.rs. -/
def SUBMISSION_PATH : String := ".within.website/x/cmd/anubis/api/pass-challenge"

/-- Build the submission URL for a solved challenge; embeds
build_submission_url from lib.rs (format strings become concatenation). -/
def build_submission_url (scheme host : String) (c : AnubisChallenge)
    (result : SolverResult) (redir_url : String) (elapsed_ms : Nat) : String :=
  if c.algorithm = "preact" then
    scheme ++ "://" ++ host ++ "/" ++ SUBMISSION_PATH ++ "?result=" ++ result.hash ++
      "&redir=" ++ urlencode redir_url ++ "&elapsedTime=" ++ toString elapsed_ms ++
      c.id_param
  else if c.algorithm = "metarefresh" then
    scheme ++ "://" ++ host ++ "/" ++ SUBMISSION_PATH ++ "?challenge=" ++ result.hash ++
      "&redir=" ++ urlencode redir_url ++ "&elapsedTime=" ++ toString elapsed_ms ++
      c.id_param
  else
    scheme ++ "://" ++ host ++ "/" ++ SUBMISSION_PATH ++ "?response=" ++ result.hash ++
      "&nonce=" ++ toString (result.nonce.getD 0) ++
      "&redir=" ++ urlencode redir_url ++ "&elapsedTime=" ++ toString elapsed_ms ++
      c.id_param

/-- JSON values, the shape serde_json exposes to the deserializers. -/
inductive Json where
  | null
  | bool (b : Bool)
  | num (n : Int)
  | str (s : String)
  | arr (xs : List Json)
  | obj (fields : List (String × Json))

/-- Extract a JSON string, failing on any other value, as serde does for a
String field. -/
def Json.asString : Json → Except String String
  | .str s => .ok s
  | _ => .error "invalid type: expected a string"

/-- The field loop of ChallengeData's visit_map: record the last id and
randomData string values seen, ignore unknown keys, and fail afterwards if
randomData never appeared. -/
def challengeDataLoop : List (String × Json) → Option String → Option String →
    Except String ChallengeData
  | [], _, none => .error "missing field randomData"
  | [], i, some rd => .ok { id := i, random_data := rd }
  | (k, v) :: rest, i, rd =>
    if k = "id" then
      match v.asString with
      | .ok s => challengeDataLoop rest (some s) rd
      | .error e => .error e
    else if k = "randomData" then
      match v.asString with
      | .ok s => challengeDataLoop rest i (some s)
      | .error e => .error e
    else challengeDataLoop rest i rd

/-- Custom Deserialize for ChallengeData (lib.rs lines 36-91): a bare string
is the legacy payload with no id; an object is scanned for id and
randomData. -/
def ChallengeData.deserialize : Json → Except String ChallengeData
  | .str s => .ok { id := none, random_data := s }
  | .obj fields => challengeDataLoop fields none none
  | _ => .error "invalid type: expected a string or an object with id and randomData"

/-- First value stored under a key in a JSON object. -/
def jsonLookup (fields : List (String × Json)) (k : String) : Option Json :=
  match fields with
  | [] => none
  | (k2, v) :: rest => if k2 = k then some v else jsonLookup rest k

/-- Derived Deserialize for AnubisChallengeRules: difficulty is a required
non-negative integer, algorithm is an optional string defaulting to "". -/
def AnubisChallengeRules.deserialize : Json → Except String AnubisChallengeRules
  | .obj fields =>
    match jsonLookup fields "difficulty" with
    | some (.num n) =>
      if 0 ≤ n then
        match jsonLookup fields "algorithm" with
        | some v =>
          match v.asString with
          | .ok s => .ok { difficulty := n.toNat, algorithm := s }
          | .error e => .error e
        | none => .ok { difficulty := n.toNat, algorithm := "" }
      else .error "invalid value: negative difficulty"
    | some _ => .error "invalid type: expected an integer difficulty"
    | none => .error "missing field difficulty"
  | _ => .error "invalid type: expected an object"

/-- Derived Deserialize for AnubisChallenge: required challenge and rules
fields. -/
def AnubisChallenge.deserialize (j : Json) : Except String AnubisChallenge :=
  match j with
  | .obj fields =>
    match jsonLookup fields "challenge" with
    | none => .error "missing field challenge"
    | some cj =>
      match ChallengeData.deserialize cj with
      | .error e => .error e
      | .ok cd =>
        match jsonLookup fields "rules" with
        | none => .error "missing field rules"
        | some rj =>
          match AnubisChallengeRules.deserialize rj with
          | .error e => .error e
          | .ok r => .ok { challenge := cd, rules := r }
  | _ => .error "invalid type: expected an object"

/-- Models Rust str::trim as used on the element text: strip leading and
trailing whitespace characters. -/
def rustTrim (s : String) : String :=
  String.mk (((s.data.dropWhile Char.isWhitespace).reverse.dropWhile
    Char.isWhitespace).reverse)

/-- Parsed challenge with optional version info; from lib.rs. -/
structure ParsedChallenge where
  challenge : AnubisChallenge
  version : String
  deriving DecidableEq, Repr

/-- Abstract view of an HTML body as seen through the scraper crate (an
external collaborator): whether the body contains the marker substring
anubis_challenge, and the collected text of the two designated elements
when they exist. -/
structure HtmlDoc where
  containsMarker : Bool
  challengeText : Option String
  versionText : Option String
  deriving DecidableEq, Repr

/-- Challenge extraction from an HTML body; embeds parse_challenge_from_html
from lib.rs over the abstract document view. The JSON text parser of
serde_json is an abstract parameter; every decode failure is converted to
none by the ok()? calls of the source. -/
def parse_challenge_from_html (parseJson : String → Option Json) (doc : HtmlDoc) :
    Option ParsedChallenge :=
  if !doc.containsMarker then none
  else
    match doc.challengeText with
    | none => none
    | some challenge_json =>
      if rustTrim challenge_json = "null" || challenge_json = "" then none
      else
        match parseJson challenge_json with
        | none => none
        | some j =>
          match AnubisChallenge.deserialize j with
          | .error _ => none
          | .ok challenge =>
            let version :=
              match doc.versionText with
              | none => "unknown"
              | some vjson =>
                match parseJson vjson with
                | none => "unknown"
                | some vj =>
                  match vj.asString with
                  | .ok v => v
                  | .error _ => "unknown"
            some { challenge := challenge, version := version }

/-- What the proxy request handler does with a fetched body (proxy.rs lines
145-157): solve when extraction produced a challenge, otherwise return the
upstream response unmodified. -/
inductive ProxyOutcome where
  | passthrough
  | solve (parsed : ParsedChallenge)
  deriving DecidableEq, Repr

/-- The challenge decision of proxy_request: passthrough exactly when the
extractor returns nothing. -/
def proxy_challenge_decision (parseJson : String → Option Json) (doc : HtmlDoc) :
    ProxyOutcome :=
  match parse_challenge_from_html parseJson doc with
  | none => .passthrough
  | some parsed => .solve parsed

/-- Solver dispatch as reimplemented by the CLI (main.rs lines 114-189): it
matches the raw declared algorithm string, not the normalized effective one,
and rejects anything outside preact, metarefresh, fast and slow. -/
def cli_solve (sha256 : String → List Nat) (W : Nat) (c : AnubisChallenge) :
    Except String SolverResult :=
  if c.rules.algorithm = "preact" then .ok (solve_preact_challenge sha256 c)
  else if c.rules.algorithm = "metarefresh" then .ok (solve_metarefresh_challenge c)
  else if c.rules.algorithm = "fast" || c.rules.algorithm = "slow" then
    solve_challenge_native sha256 W c
  else .error ("Unsupported algorithm: " ++ c.rules.algorithm)

/-- Submission URL as reimplemented by the CLI (main.rs lines 193-225): the
redirect URL is interpolated raw (never percent-encoded) and the id
parameter is appended unconditionally from the challenge's id field (the
source formats the field directly; absent ids render as the empty string
here). -/
def cli_submission_url (scheme host : String) (c : AnubisChallenge)
    (result : SolverResult) (base_url : String) (elapsed_ms : Nat) : String :=
  if c.rules.algorithm = "preact" then
    scheme ++ "://" ++ host ++ "/" ++ SUBMISSION_PATH ++ "?result=" ++ result.hash ++
      "&redir=" ++ base_url ++ "&elapsedTime=" ++ toString elapsed_ms ++ "&id=" ++
      c.challenge.id.getD ""
  else if c.rules.algorithm = "metarefresh" then
    scheme ++ "://" ++ host ++ "/" ++ SUBMISSION_PATH ++ "?challenge=" ++ result.hash ++
      "&redir=" ++ base_url ++ "&elapsedTime=" ++ toString elapsed_ms ++ "&id=" ++
      c.challenge.id.getD ""
  else
    scheme ++ "://" ++ host ++ "/" ++ SUBMISSION_PATH ++ "?response=" ++ result.hash ++
      "&nonce=" ++ toString (result.nonce.getD 0) ++
      "&redir=" ++ base_url ++ "&elapsedTime=" ++ toString elapsed_ms ++ "&id=" ++
      c.challenge.id.getD ""

/-- The proxy's per-host cookie-jar registry (proxy.rs): hosts mapped to
cookie stores, with stores identified by allocation order. The DashMap
entry API makes each get_or_create an indivisible step; this model applies
those steps in sequence. -/
structure Registry where
  entries : List (String × Nat)
  nextId : Nat
  deriving DecidableEq, Repr

/-- Embeds get_or_create_jar (proxy.rs lines 115-119): return the store for
the host if present, otherwise insert a fresh one and return it. -/
def get_or_create_jar (r : Registry) (host : String) : Nat × Registry :=
  match r.entries.lookup host with
  | some jar => (jar, r)
  | none => (r.nextId, ⟨r.entries ++ [(host, r.nextId)], r.nextId + 1⟩)

/-- The registry the proxy starts with: no hosts, no stores. -/
def Registry.empty : Registry := ⟨[], 0⟩

/-- The registry after a sequence of get_or_create accesses. -/
def run_registry (ops : List String) : Registry :=
  ops.foldl (fun r h => (get_or_create_jar r h).2) Registry.empty

/-- Structural invariant of the registry: each host has at most one entry,
no two entries share a store, and every store id was allocated below the
allocation counter. -/
def Registry.wf (r : Registry) : Prop :=
  (r.entries.map Prod.fst).Nodup ∧ (r.entries.map Prod.snd).Nodup ∧
    ∀ p ∈ r.entries, p.2 < r.nextId

instance (r : Registry) : Decidable r.wf := by
  unfold Registry.wf
  infer_instance

/-- A digest function returning the all-zero digest; it makes nonce 0 a
solution at every difficulty up to 64 and exercises the search. -/
def shaZero : String → List Nat := fun _ => List.replicate 32 0

/-- A digest function whose digests start with the byte 0x11, so no nonce
ever passes a positive difficulty. -/
def shaSeventeen : String → List Nat := fun _ => List.replicate 32 17

/-- A proof-of-work challenge fixture. -/
def cPow : AnubisChallenge := ⟨⟨none, "a"⟩, ⟨1, "fast"⟩⟩

/-- A preact challenge fixture with an id. -/
def cPre : AnubisChallenge := ⟨⟨some "i1", "pay"⟩, ⟨2, "preact"⟩⟩

/-- A metarefresh challenge fixture without an id. -/
def cMeta : AnubisChallenge := ⟨⟨none, "pay"⟩, ⟨3, "metarefresh"⟩⟩

/-- A challenge fixture whose declared algorithm is the empty string. -/
def cEmptyAlg : AnubisChallenge := ⟨⟨none, "a"⟩, ⟨1, ""⟩⟩

/-- A fast challenge fixture with an id, for the submission-URL theorems. -/
def cFastId : AnubisChallenge := ⟨⟨some "x", "d"⟩, ⟨1, "fast"⟩⟩

/-- A challenge fixture whose declared algorithm the CLI does not support. -/
def cUnknown : AnubisChallenge := ⟨⟨none, "a"⟩, ⟨1, "weird"⟩⟩

/-- A solver-result fixture carrying a nonce. -/
def rPow : SolverResult := ⟨"h", "d", 1, some 2⟩

/-- A solver-result fixture with the nonce absent. -/
def rNoNonce : SolverResult := ⟨"h", "d", 1, none⟩

/-- A registry fixture holding one host. -/
def R0 : Registry := ⟨[("a", 0)], 1⟩

example : check_difficulty_fast [0, 0, 15, 3] 4 = true := by decide
example : check_difficulty_fast [0, 0, 15, 3] 3 = true := by decide
example : check_difficulty_fast [0, 0, 15, 3] 5 = true := by decide
example : check_difficulty_fast [0, 0, 15, 3] 6 = false := by decide
example : check_difficulty_fast [0, 16, 15, 3] 3 = false := by decide
example : check_difficulty_fast [0, 0] 6 = false := by decide
example : check_difficulty_fast [0, 0] 5 = false := by decide
example : hexEncode [0, 255, 26] = "00ff1a" := by decide
example : urlencode "https://a" = "https%3A%2F%2Fa" := by decide

/-- The bit test of check_difficulty_fast, characterized the way the spec
states the difficulty invariant: the leading floor(d/2) digest bytes are
zero, and for odd d the high nibble of the byte at index floor(d/2) is also
zero. -/
theorem check_difficulty_fast_eq_true_iff (h : List Nat) (d : Nat) :
    check_difficulty_fast h d = true ↔
      h.take (d / 2) = List.replicate (d / 2) 0 ∧
        (d % 2 = 1 → d / 2 < h.length ∧ h.getD (d / 2) 0 >>> 4 = 0) := by
  unfold check_difficulty_fast
  by_cases h1 : h.length < d / 2
  · rw [if_pos h1]
    refine iff_of_false (by simp) ?_
    rintro ⟨htake, -⟩
    have := congrArg List.length htake
    rw [List.length_take, List.length_replicate] at this
    omega
  · rw [if_neg h1]
    by_cases h2 : ∀ b ∈ h.take (d / 2), b = 0
    · have hany : ¬ ((h.take (d / 2)).any fun b => b != 0) = true := by
        rw [List.any_eq_true]
        rintro ⟨b, hb, hbne⟩
        simp only [bne_iff_ne, ne_eq] at hbne
        exact hbne (h2 b hb)
      rw [if_neg hany]
      have htake : h.take (d / 2) = List.replicate (d / 2) 0 := by
        rw [List.eq_replicate_iff]
        exact ⟨by rw [List.length_take]; omega, h2⟩
      by_cases hodd : d % 2 = 1
      · have hc3 : (d % 2 != 0) = true := by
          simp only [bne_iff_ne, ne_eq]
          omega
        rw [if_pos hc3]
        by_cases h4 : h.length ≤ d / 2
        · rw [if_pos h4]
          refine iff_of_false (by simp) ?_
          rintro ⟨-, hc⟩
          have := (hc hodd).1
          omega
        · rw [if_neg h4]
          by_cases h5 : h.getD (d / 2) 0 >>> 4 = 0
          · rw [if_neg (show ¬ ((h.getD (d / 2) 0 >>> 4 != 0) = true) by simpa using h5)]
            exact iff_of_true rfl ⟨htake, fun _ => ⟨by omega, h5⟩⟩
          · rw [if_pos (show (h.getD (d / 2) 0 >>> 4 != 0) = true by simpa using h5)]
            refine iff_of_false (by simp) ?_
            rintro ⟨-, hc⟩
            exact h5 (hc hodd).2
      · have hc3 : ¬ ((d % 2 != 0) = true) := by
          simp only [bne_iff_ne, ne_eq]
          omega
        rw [if_neg hc3]
        exact iff_of_true rfl ⟨htake, fun hc => absurd hc hodd⟩
    · push_neg at h2
      obtain ⟨b, hb, hbne⟩ := h2
      rw [if_pos (List.any_eq_true.mpr ⟨b, hb, by simpa using hbne⟩)]
      refine iff_of_false (by simp) ?_
      rintro ⟨htake, -⟩
      apply hbne
      have : b ∈ List.replicate (d / 2) 0 := htake ▸ hb
      exact List.eq_of_mem_replicate this

/-- A worker only ever returns a nonce whose digest passes the difficulty
test: the search inspects every candidate with check_difficulty_fast before
publishing it. -/
theorem workerLoop_some_check (sha256 : String → List Nat) (data : String)
    (d W : Nat) :
    ∀ fuel nonce n, workerLoop sha256 data d W nonce fuel = some n →
      check_difficulty_fast (powDigest sha256 data n) d = true := by
  intro fuel
  induction fuel with
  | zero =>
    intro nonce n hsome
    simp [workerLoop] at hsome
  | succ f ih =>
    intro nonce n hsome
    rw [workerLoop] at hsome
    by_cases hchk : check_difficulty_fast (powDigest sha256 data nonce) d = true
    · rw [if_pos hchk] at hsome
      cases hsome
      exact hchk
    · rw [if_neg hchk] at hsome
      cases hadd : checkedAdd nonce W with
      | some next =>
        rw [hadd] at hsome
        exact ih next n hsome
      | none =>
        rw [hadd] at hsome
        cases hsome

/-- A worker keeps every visited nonce within the u64 range. -/
theorem workerLoop_none_of_all_fail (sha256 : String → List Nat) (data : String)
    (d W : Nat)
    (hall : ∀ n, n ≤ U64_MAX →
      check_difficulty_fast (powDigest sha256 data n) d = false) :
    ∀ fuel nonce, nonce ≤ U64_MAX → workerLoop sha256 data d W nonce fuel = none := by
  intro fuel
  induction fuel with
  | zero =>
    intro nonce _
    rfl
  | succ f ih =>
    intro nonce hle
    rw [workerLoop]
    rw [if_neg (by simp [hall nonce hle])]
    cases hadd : checkedAdd nonce W with
    | some next =>
      have hnext : next ≤ U64_MAX := by
        unfold checkedAdd at hadd
        by_cases hb : nonce + W ≤ U64_MAX
        · rw [if_pos hb] at hadd
          cases hadd
          exact hb
        · rw [if_neg hb] at hadd
          cases hadd
      exact ih next hnext
    | none => rfl

/-- findSome? yields some only from some member of the list. -/
theorem exists_mem_of_findSome?_eq_some {α β : Type} (f : α → Option β) :
    ∀ (l : List α) (b : β), l.findSome? f = some b → ∃ a ∈ l, f a = some b := by
  intro l
  induction l with
  | nil =>
    intro b hsome
    simp [List.findSome?] at hsome
  | cons a as ih =>
    intro b hsome
    rw [List.findSome?] at hsome
    cases hfa : f a with
    | some c =>
      rw [hfa] at hsome
      cases hsome
      exact ⟨a, List.mem_cons_self a as, hfa⟩
    | none =>
      rw [hfa] at hsome
      obtain ⟨a2, ha2, hfa2⟩ := ih b hsome
      exact ⟨a2, List.mem_cons_of_mem a ha2, hfa2⟩

/-- findSome? yields none when the function yields none on every member. -/
theorem findSome?_eq_none_of_forall {α β : Type} (f : α → Option β) :
    ∀ l : List α, (∀ a ∈ l, f a = none) → l.findSome? f = none := by
  intro l
  induction l with
  | nil => intro _; rfl
  | cons a as ih =>
    intro hall
    rw [List.findSome?, hall a (List.mem_cons_self a as)]
    exact ih fun a2 ha2 => hall a2 (List.mem_cons_of_mem a ha2)

/-- The exhaustive-failure behavior of the search, shared by the exhaustion
theorems: when no nonce in the u64 range passes the test the search returns
the error of lib.rs line 358. -/
theorem solve_native_all_fail (sha256 : String → List Nat) (W : Nat)
    (c : AnubisChallenge)
    (hall : ∀ n, n ≤ U64_MAX →
      check_difficulty_fast (powDigest sha256 c.challenge.random_data n)
        c.rules.difficulty = false) :
    solve_challenge_native sha256 W c =
      .error "Solver finished without finding a solution." := by
  unfold solve_challenge_native
  rw [findSome?_eq_none_of_forall]
  intro k _
  exact workerLoop_none_of_all_fail sha256 c.challenge.random_data
    c.rules.difficulty W hall (U64_MAX + 1) (k % (U64_MAX + 1))
    (Nat.lt_succ_iff.mp (Nat.mod_lt k (Nat.succ_pos U64_MAX)))

/-- lookup over an appended association list: a hit on the left wins. -/
theorem lookup_append_of_some {l1 l2 : List (String × Nat)} {k : String} {v : Nat}
    (hsome : l1.lookup k = some v) : (l1 ++ l2).lookup k = some v := by
  induction l1 with
  | nil => simp [List.lookup] at hsome
  | cons p rest ih =>
    rw [List.cons_append]
    cases hbe : (k == p.1) with
    | true =>
      simp only [List.lookup, hbe] at hsome ⊢
      exact hsome
    | false =>
      simp only [List.lookup, hbe] at hsome ⊢
      exact ih hsome

/-- lookup over an appended association list: a left miss defers to the right. -/
theorem lookup_append_of_none {l1 l2 : List (String × Nat)} {k : String}
    (hnone : l1.lookup k = none) : (l1 ++ l2).lookup k = l2.lookup k := by
  induction l1 with
  | nil => rfl
  | cons p rest ih =>
    rw [List.cons_append]
    cases hbe : (k == p.1) with
    | true =>
      simp only [List.lookup, hbe] at hnone
      cases hnone
    | false =>
      simp only [List.lookup, hbe] at hnone ⊢
      exact ih hnone

/-- A successful lookup names an actual entry of the list. -/
theorem mem_of_lookup_some {l : List (String × Nat)} {k : String} {v : Nat}
    (hsome : l.lookup k = some v) : (k, v) ∈ l := by
  induction l with
  | nil => simp [List.lookup] at hsome
  | cons p rest ih =>
    cases hbe : (k == p.1) with
    | true =>
      simp only [List.lookup, hbe] at hsome
      have hk : k = p.1 := by simpa using hbe
      have hv : p.2 = v := by simpa using hsome
      have : p = (k, v) := by
        cases p
        simp_all
      rw [← this]
      exact List.mem_cons_self _ _
    | false =>
      simp only [List.lookup, hbe] at hsome
      exact List.mem_cons_of_mem p (ih hsome)

/-- A failed lookup means the key labels no entry. -/
theorem not_mem_keys_of_lookup_none {l : List (String × Nat)} {k : String}
    (hnone : l.lookup k = none) : k ∉ l.map Prod.fst := by
  induction l with
  | nil => simp
  | cons p rest ih =>
    cases hbe : (k == p.1) with
    | true =>
      simp only [List.lookup, hbe] at hnone
      cases hnone
    | false =>
      simp only [List.lookup, hbe] at hnone
      simp only [List.map_cons, List.mem_cons]
      have hk : k ≠ p.1 := by simpa using hbe
      rintro (h | h)
      · exact hk h
      · exact ih hnone h

/-- Two different keys of a doubly-nodup association list carry different
values. -/
theorem lookup_values_ne {l : List (String × Nat)} {k1 k2 : String} {v1 v2 : Nat}
    (hkeys : (l.map Prod.fst).Nodup) (hvals : (l.map Prod.snd).Nodup)
    (h1 : l.lookup k1 = some v1) (h2 : l.lookup k2 = some v2) (hne : k1 ≠ k2) :
    v1 ≠ v2 := by
  induction l with
  | nil => simp [List.lookup] at h1
  | cons p rest ih =>
    simp only [List.map_cons, List.nodup_cons] at hkeys hvals
    cases hbe1 : (k1 == p.1) with
    | true =>
      simp only [List.lookup, hbe1] at h1
      have hk1 : k1 = p.1 := by simpa using hbe1
      have hbe2 : (k2 == p.1) = false := by
        simp only [beq_eq_false_iff_ne, ne_eq]
        exact fun hk2 => hne (hk1 ▸ hk2.symm ▸ rfl)
      simp only [List.lookup, hbe2] at h2
      have hv1 : p.2 = v1 := by simpa using h1
      have : v2 ∈ rest.map Prod.snd :=
        List.mem_map_of_mem Prod.snd (mem_of_lookup_some h2)
      intro hv
      exact hvals.1 (hv1 ▸ hv ▸ this)
    | false =>
      simp only [List.lookup, hbe1] at h1
      cases hbe2 : (k2 == p.1) with
      | true =>
        simp only [List.lookup, hbe2] at h2
        have hv2 : p.2 = v2 := by simpa using h2
        have : v1 ∈ rest.map Prod.snd :=
          List.mem_map_of_mem Prod.snd (mem_of_lookup_some h1)
        intro hv
        exact hvals.1 (hv2 ▸ hv ▸ this)
      | false =>
        simp only [List.lookup, hbe2] at h2
        exact ih hkeys.2 hvals.2 h1 h2

/-- Inserted store ids stay below the allocation counter, so the fresh id is
never already in use. -/
theorem lookup_lt_nextId {r : Registry} {h : String} {v : Nat} (hwf : r.wf)
    (hsome : r.entries.lookup h = some v) : v < r.nextId :=
  hwf.2.2 (h, v) (mem_of_lookup_some hsome)

/-- get_or_create_jar preserves the registry invariant: it never duplicates
a host entry and never reuses a store. -/
theorem wf_get_or_create_jar (r : Registry) (h : String) (hwf : r.wf) :
    (get_or_create_jar r h).2.wf := by
  unfold get_or_create_jar
  cases hlk : r.entries.lookup h with
  | some jar => exact hwf
  | none =>
    dsimp only
    refine ⟨?_, ?_, ?_⟩
    · rw [List.map_append]
      rw [List.nodup_append]
      refine ⟨hwf.1, by simp, ?_⟩
      intro a ha hb
      simp only [List.map_cons, List.map_nil, List.mem_singleton] at hb
      exact not_mem_keys_of_lookup_none hlk (hb ▸ ha)
    · rw [List.map_append]
      rw [List.nodup_append]
      refine ⟨hwf.2.1, by simp, ?_⟩
      intro a ha hb
      simp only [List.map_cons, List.map_nil, List.mem_singleton] at hb
      have : a < r.nextId := by
        obtain ⟨p, hp, hpa⟩ := List.mem_map.mp ha
        exact hpa ▸ hwf.2.2 p hp
      omega
    · intro p hp
      rw [List.mem_append] at hp
      rcases hp with hp | hp
      · have := hwf.2.2 p hp
        dsimp only
        omega
      · simp only [List.mem_singleton] at hp
        rw [hp]
        dsimp only
        omega

/-- Every registry reachable from the empty one by get_or_create accesses
satisfies the invariant. -/
theorem wf_run_registry (ops : List String) : (run_registry ops).wf := by
  unfold run_registry
  have hgen : ∀ (l : List String) (r : Registry), r.wf →
      (l.foldl (fun r h => (get_or_create_jar r h).2) r).wf := by
    intro l
    induction l with
    | nil => intro r hr; exact hr
    | cons a rest ih =>
      intro r hr
      rw [List.foldl_cons]
      exact ih _ (wf_get_or_create_jar r a hr)
  exact hgen ops Registry.empty (by refine ⟨?_, ?_, ?_⟩ <;> simp [Registry.empty])

/-- A second access for the same host returns the same store as the first:
the store id handed out is stable. -/
theorem get_or_create_jar_same_host (r : Registry) (h : String) :
    (get_or_create_jar (get_or_create_jar r h).2 h).1 = (get_or_create_jar r h).1 := by
  unfold get_or_create_jar
  cases hlk : r.entries.lookup h with
  | some jar =>
    dsimp only
    rw [hlk]
  | none =>
    dsimp only
    have : (r.entries ++ [(h, r.nextId)]).lookup h = some r.nextId := by
      rw [lookup_append_of_none hlk]
      simp [List.lookup]
    rw [this]

/-- Accesses for two different hosts return two different stores. -/
theorem get_or_create_jar_distinct_hosts (r : Registry) (h1 h2 : String)
    (hwf : r.wf) (hne : h1 ≠ h2) :
    (get_or_create_jar (get_or_create_jar r h1).2 h2).1 ≠
      (get_or_create_jar r h1).1 := by
  unfold get_or_create_jar
  cases hlk1 : r.entries.lookup h1 with
  | some jar1 =>
    dsimp only
    cases hlk2 : r.entries.lookup h2 with
    | some jar2 =>
      dsimp only
      exact lookup_values_ne hwf.1 hwf.2.1 hlk2 hlk1 (Ne.symm hne)
    | none =>
      dsimp only
      have := lookup_lt_nextId hwf hlk1
      omega
  | none =>
    dsimp only
    cases hlk2 : (r.entries ++ [(h1, r.nextId)]).lookup h2 with
    | some jar2 =>
      dsimp only
      have hb : (h2 == h1) = false := beq_eq_false_iff_ne.mpr (Ne.symm hne)
      have hsingle : ([(h1, r.nextId)] : List (String × Nat)).lookup h2 = none := by
        simp [List.lookup, hb]
      cases hlk2r : r.entries.lookup h2 with
      | some v =>
        have : jar2 = v := by
          rw [lookup_append_of_some hlk2r] at hlk2
          cases hlk2
          rfl
        have hlt := lookup_lt_nextId hwf hlk2r
        omega
      | none =>
        rw [lookup_append_of_none hlk2r, hsingle] at hlk2
        cases hlk2
    | none =>
      dsimp only
      omega

/-- C1: any SolverResult returned successfully by the proof-of-work search
solve_challenge_native has a nonce n such that the first floor(difficulty/2)
bytes of SHA-256(payload ++ decimal(n)) are zero, for odd difficulty the
high nibble of the byte at index floor(difficulty/2) is zero as well, and
the result's hash field is the hex encoding of that digest. -/
theorem solve_challenge_native_sound (sha256 : String → List Nat) (W : Nat)
    (c : AnubisChallenge) (res : SolverResult)
    (hok : solve_challenge_native sha256 W c = .ok res) :
    ∃ n, res.nonce = some n ∧
      (powDigest sha256 c.challenge.random_data n).take (c.rules.difficulty / 2) =
        List.replicate (c.rules.difficulty / 2) 0 ∧
      (c.rules.difficulty % 2 = 1 →
        c.rules.difficulty / 2 < (powDigest sha256 c.challenge.random_data n).length ∧
        (powDigest sha256 c.challenge.random_data n).getD
          (c.rules.difficulty / 2) 0 >>> 4 = 0) ∧
      res.hash = hexEncode (powDigest sha256 c.challenge.random_data n) := by
  unfold solve_challenge_native at hok
  cases hfs : (List.range W).findSome?
      (fun k => workerLoop sha256 c.challenge.random_data c.rules.difficulty W
        (k % (U64_MAX + 1)) (U64_MAX + 1)) with
  | none =>
    rw [hfs] at hok
    cases hok
  | some n =>
    rw [hfs] at hok
    obtain ⟨k, hk, hwl⟩ := exists_mem_of_findSome?_eq_some _ _ _ hfs
    have hchk := workerLoop_some_check sha256 c.challenge.random_data
      c.rules.difficulty W _ _ _ hwl
    rw [check_difficulty_fast_eq_true_iff] at hchk
    cases hok
    exact ⟨n, rfl, hchk.1, hchk.2, rfl⟩

/-- Witness for C1 at a concrete digest function, challenge and worker
count: the theorem applies with every hypothesis discharged. -/
theorem solve_challenge_native_sound_witness :
    ∃ n, (powResult shaZero "a" 1 0).nonce = some n ∧
      (powDigest shaZero "a" n).take (1 / 2) = List.replicate (1 / 2) 0 ∧
      (1 % 2 = 1 → 1 / 2 < (powDigest shaZero "a" n).length ∧
        (powDigest shaZero "a" n).getD (1 / 2) 0 >>> 4 = 0) ∧
      (powResult shaZero "a" 1 0).hash = hexEncode (powDigest shaZero "a" n) :=
  solve_challenge_native_sound shaZero 1 cPow (powResult shaZero "a" 1 0) rfl

/-- C4: the fallback path of solve_challenge_native recomputes
SHA-256(payload ++ decimal(published winning nonce)) and yields a
SolverResult identical to the one the winning worker would have published
directly for that same nonce. -/
theorem fallback_result_eq_published (sha256 : String → List Nat) (data : String)
    (difficulty nonce : Nat) :
    fallbackResult sha256 data difficulty nonce =
      powResult sha256 data difficulty nonce := rfl

/-- C3 amended: a worker whose next nonce would overflow the u64 range
exits its loop without producing a result, and when no nonce in the range
passes the difficulty test (every worker exhausts its range with the stop
flag never set) solve_challenge_native returns the error
"Solver finished without finding a solution." rather than a result. -/
theorem solver_overflow_and_exhaustion :
    (∀ (sha256 : String → List Nat) (data : String) (d W nonce fuel : Nat),
        check_difficulty_fast (powDigest sha256 data nonce) d = false →
        U64_MAX < nonce + W →
        workerLoop sha256 data d W nonce (fuel + 1) = none) ∧
    (∀ (sha256 : String → List Nat) (W : Nat) (c : AnubisChallenge),
        (∀ n, n ≤ U64_MAX →
          check_difficulty_fast (powDigest sha256 c.challenge.random_data n)
            c.rules.difficulty = false) →
        solve_challenge_native sha256 W c =
          .error "Solver finished without finding a solution.") := by
  constructor
  · intro sha256 data d W nonce fuel hchk hover
    rw [workerLoop, if_neg (by simp [hchk])]
    have hnone : checkedAdd nonce W = none := by
      unfold checkedAdd
      rw [if_neg (by omega)]
    rw [hnone]
  · intro sha256 W c hall
    exact solve_native_all_fail sha256 W c hall

/-- Witness for C3: both behaviors observed at a digest function that never
produces a leading zero nibble. -/
theorem solver_overflow_and_exhaustion_witness :
    workerLoop shaSeventeen "a" 1 1 U64_MAX 1 = none ∧
    solve_challenge_native shaSeventeen 1 cPow =
      Except.error "Solver finished without finding a solution." :=
  ⟨solver_overflow_and_exhaustion.1 shaSeventeen "a" 1 1 U64_MAX 0
      (by decide) (by decide),
   solver_overflow_and_exhaustion.2 shaSeventeen 1 cPow
      (fun n _ => by
        show check_difficulty_fast (List.replicate 32 17) 1 = false
        decide)⟩

/-- C3 counterexample: at a concrete challenge whose nonce space holds no
solution, the search fails with the message
"Solver finished without finding a solution.", not with the claimed message
"no solution found". -/
theorem solver_error_message_cex :
    solve_challenge_native shaSeventeen 1 cPow ≠
        Except.error "no solution found" ∧
      solve_challenge_native shaSeventeen 1 cPow =
        Except.error "Solver finished without finding a solution." := by
  have h := solve_native_all_fail shaSeventeen 1 cPow
    (fun n _ => by
      show check_difficulty_fast (List.replicate 32 17) 1 = false
      decide)
  refine ⟨?_, h⟩
  rw [h]
  intro hc
  injection hc with hmsg
  have hne : ¬ ("Solver finished without finding a solution." = "no solution found") := by
    decide
  exact hne hmsg

/-- C5: solve_challenge dispatches on the effective algorithm: preact yields
the hex-encoded SHA-256 of the payload, metarefresh yields the payload
unchanged, and every other effective algorithm (fast, slow, unknown strings,
the empty string normalized to fast) runs the proof-of-work search; the
preact and metarefresh results have no nonce. -/
theorem solve_challenge_dispatch (sha256 : String → List Nat) (W : Nat)
    (c : AnubisChallenge) :
    (c.algorithm = "preact" →
      solve_challenge sha256 W c = .ok
        { hash := hexEncode (sha256 c.challenge.random_data)
          data := c.challenge.random_data
          difficulty := c.rules.difficulty
          nonce := none }) ∧
    (c.algorithm = "metarefresh" →
      solve_challenge sha256 W c = .ok
        { hash := c.challenge.random_data
          data := c.challenge.random_data
          difficulty := c.rules.difficulty
          nonce := none }) ∧
    (c.algorithm ≠ "preact" → c.algorithm ≠ "metarefresh" →
      solve_challenge sha256 W c = solve_challenge_native sha256 W c) ∧
    (c.rules.algorithm = "" → c.algorithm = "fast") := by
  refine ⟨?_, ?_, ?_, ?_⟩
  · intro h
    unfold solve_challenge
    rw [if_pos h]
    rfl
  · intro h
    unfold solve_challenge
    rw [if_neg (by rw [h]; decide), if_pos h]
    rfl
  · intro h1 h2
    unfold solve_challenge
    rw [if_neg h1, if_neg h2]
  · intro h
    unfold AnubisChallenge.algorithm
    rw [if_pos h]

/-- Witness for C5 at three concrete challenges covering the preact,
metarefresh and empty-algorithm branches. -/
theorem solve_challenge_dispatch_witness :
    solve_challenge shaZero 1 cPre = .ok
      { hash := hexEncode (shaZero "pay"), data := "pay", difficulty := 2,
        nonce := none } ∧
    solve_challenge shaZero 1 cMeta = .ok
      { hash := "pay", data := "pay", difficulty := 3, nonce := none } ∧
    solve_challenge shaZero 1 cEmptyAlg = solve_challenge_native shaZero 1 cEmptyAlg ∧
    cEmptyAlg.algorithm = "fast" :=
  ⟨(solve_challenge_dispatch shaZero 1 cPre).1 (by decide),
   (solve_challenge_dispatch shaZero 1 cMeta).2.1 (by decide),
   (solve_challenge_dispatch shaZero 1 cEmptyAlg).2.2.1 (by decide) (by decide),
   (solve_challenge_dispatch shaZero 1 cEmptyAlg).2.2.2 rfl⟩

/-- C2: build_submission_url is deterministic, names its query parameter per
effective algorithm (result for preact, challenge for metarefresh, response
plus nonce otherwise), percent-encodes the redirect URL, and appends the id
parameter exactly when the challenge id is present. -/
theorem build_submission_url_spec (scheme host : String) (c : AnubisChallenge)
    (result : SolverResult) (redir_url : String) (elapsed_ms : Nat) :
    build_submission_url scheme host c result redir_url elapsed_ms =
      build_submission_url scheme host c result redir_url elapsed_ms ∧
    (c.algorithm = "preact" →
      build_submission_url scheme host c result redir_url elapsed_ms =
        scheme ++ "://" ++ host ++ "/" ++ SUBMISSION_PATH ++ "?result=" ++
          result.hash ++ "&redir=" ++ urlencode redir_url ++ "&elapsedTime=" ++
          toString elapsed_ms ++ c.id_param) ∧
    (c.algorithm = "metarefresh" →
      build_submission_url scheme host c result redir_url elapsed_ms =
        scheme ++ "://" ++ host ++ "/" ++ SUBMISSION_PATH ++ "?challenge=" ++
          result.hash ++ "&redir=" ++ urlencode redir_url ++ "&elapsedTime=" ++
          toString elapsed_ms ++ c.id_param) ∧
    (c.algorithm ≠ "preact" → c.algorithm ≠ "metarefresh" →
      build_submission_url scheme host c result redir_url elapsed_ms =
        scheme ++ "://" ++ host ++ "/" ++ SUBMISSION_PATH ++ "?response=" ++
          result.hash ++ "&nonce=" ++ toString (result.nonce.getD 0) ++
          "&redir=" ++ urlencode redir_url ++ "&elapsedTime=" ++
          toString elapsed_ms ++ c.id_param) ∧
    (∀ i, c.challenge.id = some i → c.id_param = "&id=" ++ i) ∧
    (c.challenge.id = none → c.id_param = "") := by
  refine ⟨rfl, ?_, ?_, ?_, ?_, ?_⟩
  · intro h
    unfold build_submission_url
    rw [if_pos h]
  · intro h
    unfold build_submission_url
    rw [if_neg (by rw [h]; decide), if_pos h]
  · intro h1 h2
    unfold build_submission_url
    rw [if_neg h1, if_neg h2]
  · intro i hid
    unfold AnubisChallenge.id_param
    rw [hid]
  · intro hid
    unfold AnubisChallenge.id_param
    rw [hid]

/-- Witness for C2 across the three parameter-naming branches and both id
shapes, at concrete challenges and results. -/
theorem build_submission_url_spec_witness :
    build_submission_url "https" "ex" cPre rNoNonce "r" 5 =
      "https" ++ "://" ++ "ex" ++ "/" ++ SUBMISSION_PATH ++ "?result=" ++
        rNoNonce.hash ++ "&redir=" ++ urlencode "r" ++ "&elapsedTime=" ++
        toString 5 ++ cPre.id_param ∧
    build_submission_url "https" "ex" cMeta rNoNonce "r" 5 =
      "https" ++ "://" ++ "ex" ++ "/" ++ SUBMISSION_PATH ++ "?challenge=" ++
        rNoNonce.hash ++ "&redir=" ++ urlencode "r" ++ "&elapsedTime=" ++
        toString 5 ++ cMeta.id_param ∧
    build_submission_url "https" "ex" cFastId rPow "r" 5 =
      "https" ++ "://" ++ "ex" ++ "/" ++ SUBMISSION_PATH ++ "?response=" ++
        rPow.hash ++ "&nonce=" ++ toString (rPow.nonce.getD 0) ++ "&redir=" ++
        urlencode "r" ++ "&elapsedTime=" ++ toString 5 ++ cFastId.id_param ∧
    cFastId.id_param = "&id=" ++ "x" ∧
    cMeta.id_param = "" :=
  ⟨(build_submission_url_spec "https" "ex" cPre rNoNonce "r" 5).2.1 (by decide),
   (build_submission_url_spec "https" "ex" cMeta rNoNonce "r" 5).2.2.1 (by decide),
   (build_submission_url_spec "https" "ex" cFastId rPow "r" 5).2.2.2.1
      (by decide) (by decide),
   (build_submission_url_spec "https" "ex" cFastId rPow "r" 5).2.2.2.2.1 "x" rfl,
   (build_submission_url_spec "https" "ex" cMeta rPow "r" 5).2.2.2.2.2 rfl⟩

/-- C10: for a proof-of-work effective algorithm and a SolverResult whose
nonce is absent, build_submission_url still succeeds and emits nonce=0. -/
theorem build_submission_url_nonce_default (scheme host : String)
    (c : AnubisChallenge) (result : SolverResult) (redir_url : String)
    (elapsed_ms : Nat) (h1 : c.algorithm ≠ "preact")
    (h2 : c.algorithm ≠ "metarefresh") (h3 : result.nonce = none) :
    build_submission_url scheme host c result redir_url elapsed_ms =
      scheme ++ "://" ++ host ++ "/" ++ SUBMISSION_PATH ++ "?response=" ++
        result.hash ++ "&nonce=" ++ "0" ++ "&redir=" ++ urlencode redir_url ++
        "&elapsedTime=" ++ toString elapsed_ms ++ c.id_param := by
  unfold build_submission_url
  rw [if_neg h1, if_neg h2, h3]
  rfl

/-- Witness for C10: a fast challenge and a nonce-less result render
nonce=0. -/
theorem build_submission_url_nonce_default_witness :
    build_submission_url "https" "ex" cFastId rNoNonce "r" 5 =
      "https" ++ "://" ++ "ex" ++ "/" ++ SUBMISSION_PATH ++ "?response=" ++
        rNoNonce.hash ++ "&nonce=" ++ "0" ++ "&redir=" ++ urlencode "r" ++
        "&elapsedTime=" ++ toString 5 ++ cFastId.id_param :=
  build_submission_url_nonce_default "https" "ex" cFastId rNoNonce "r" 5
    (by decide) (by decide) rfl

/-- C6: the challenge extractor decodes the legacy bare-string form and the
object form with id and randomData to equivalent ChallengeData values: both
carry payload s; they differ only in the id, absent for the bare string and
present for the object. -/
theorem challenge_forms_equivalent (s i : String) :
    ChallengeData.deserialize (.str s) = .ok { id := none, random_data := s } ∧
    ChallengeData.deserialize (.obj [("id", .str i), ("randomData", .str s)]) =
      .ok { id := some i, random_data := s } := by
  constructor
  · rfl
  · rfl

/-- A JSON-text parser that fails on every input, standing in for serde_json
on malformed text. -/
def pjNone : String → Option Json := fun _ => none

/-- A challenge JSON value whose object form lacks the required randomData
field. -/
def jMissing : Json :=
  Json.obj [("challenge", Json.obj [("id", Json.str "x")]),
    ("rules", Json.obj [("difficulty", Json.num 1)])]

/-- A JSON-text parser that yields the randomData-missing object. -/
def pjMissing : String → Option Json := fun _ => some jMissing

/-- A document without the challenge marker. -/
def docNoMarker : HtmlDoc := ⟨false, none, none⟩

/-- A document whose challenge element holds the literal null. -/
def docNull : HtmlDoc := ⟨true, some "null", none⟩

/-- A document whose challenge element holds malformed JSON. -/
def docBadJson : HtmlDoc := ⟨true, some "not json", none⟩

/-- A document whose challenge element decodes to the randomData-missing
object. -/
def docObjX : HtmlDoc := ⟨true, some "x", none⟩

/-- C7 counterexample: with the marker present but the payload JSON
malformed, or its object form missing randomData, extraction yields the
same benign none outcome as an absent marker, and the proxy handler passes
the response through instead of raising a terminal error. -/
theorem decode_failure_not_fatal_cex :
    proxy_challenge_decision pjNone docBadJson = ProxyOutcome.passthrough ∧
    proxy_challenge_decision pjMissing docObjX = ProxyOutcome.passthrough ∧
    proxy_challenge_decision pjNone docNoMarker = ProxyOutcome.passthrough :=
  ⟨rfl, rfl, rfl⟩

/-- C7 amended: when the marker is absent, the element content is empty or
the literal null, the JSON text is malformed, or the decoded object fails
deserialization (for example missing randomData), extraction returns the
same benign no-challenge outcome none, and the proxy passes the upstream
response through; decode failures are not distinguished from the
passthrough case. -/
theorem extractor_failure_outcomes (parseJson : String → Option Json)
    (doc : HtmlDoc) :
    (doc.containsMarker = false →
      parse_challenge_from_html parseJson doc = none ∧
      proxy_challenge_decision parseJson doc = .passthrough) ∧
    (∀ t, doc.challengeText = some t → (rustTrim t = "null" ∨ t = "") →
      parse_challenge_from_html parseJson doc = none ∧
      proxy_challenge_decision parseJson doc = .passthrough) ∧
    (∀ t, doc.challengeText = some t → parseJson t = none →
      parse_challenge_from_html parseJson doc = none ∧
      proxy_challenge_decision parseJson doc = .passthrough) ∧
    (∀ t j e, doc.challengeText = some t → parseJson t = some j →
      AnubisChallenge.deserialize j = .error e →
      parse_challenge_from_html parseJson doc = none ∧
      proxy_challenge_decision parseJson doc = .passthrough) := by
  have hdec : parse_challenge_from_html parseJson doc = none →
      proxy_challenge_decision parseJson doc = .passthrough := by
    intro hp
    unfold proxy_challenge_decision
    rw [hp]
  refine ⟨?_, ?_, ?_, ?_⟩
  · intro hm
    have hp : parse_challenge_from_html parseJson doc = none := by
      unfold parse_challenge_from_html
      rw [hm]
      rfl
    exact ⟨hp, hdec hp⟩
  · intro t ht hnull
    have hp : parse_challenge_from_html parseJson doc = none := by
      unfold parse_challenge_from_html
      cases hm : doc.containsMarker with
      | false => rfl
      | true =>
        rw [ht]
        have hcond : (rustTrim t = "null" || t = "") = true := by
          rcases hnull with hnull | hnull <;> simp [hnull]
        simp only [Bool.not_true]
        rw [if_neg (by simp), if_pos hcond]
    exact ⟨hp, hdec hp⟩
  · intro t ht hpj
    have hp : parse_challenge_from_html parseJson doc = none := by
      unfold parse_challenge_from_html
      cases hm : doc.containsMarker with
      | false => rfl
      | true =>
        rw [ht]
        simp only [Bool.not_true]
        rw [if_neg (by simp)]
        by_cases hcond : (rustTrim t = "null" || t = "") = true
        · rw [if_pos hcond]
        · rw [if_neg hcond, hpj]
    exact ⟨hp, hdec hp⟩
  · intro t j e ht hpj hdes
    have hp : parse_challenge_from_html parseJson doc = none := by
      unfold parse_challenge_from_html
      cases hm : doc.containsMarker with
      | false => rfl
      | true =>
        rw [ht]
        simp only [Bool.not_true]
        rw [if_neg (by simp)]
        by_cases hcond : (rustTrim t = "null" || t = "") = true
        · rw [if_pos hcond]
        · rw [if_neg hcond, hpj]
          dsimp only
          rw [hdes]
    exact ⟨hp, hdec hp⟩

/-- Witness for C7 amended across all four failure shapes at concrete
documents and parsers. -/
theorem extractor_failure_outcomes_witness :
    (parse_challenge_from_html pjNone docNoMarker = none ∧
      proxy_challenge_decision pjNone docNoMarker = .passthrough) ∧
    (parse_challenge_from_html pjNone docNull = none ∧
      proxy_challenge_decision pjNone docNull = .passthrough) ∧
    (parse_challenge_from_html pjNone docBadJson = none ∧
      proxy_challenge_decision pjNone docBadJson = .passthrough) ∧
    (parse_challenge_from_html pjMissing docObjX = none ∧
      proxy_challenge_decision pjMissing docObjX = .passthrough) :=
  ⟨(extractor_failure_outcomes pjNone docNoMarker).1 rfl,
   (extractor_failure_outcomes pjNone docNull).2.1 "null" rfl (Or.inl (by decide)),
   (extractor_failure_outcomes pjNone docBadJson).2.2.1 "not json" rfl rfl,
   (extractor_failure_outcomes pjMissing docObjX).2.2.2 "x" jMissing
      "missing field randomData" rfl rfl rfl⟩

/-- C8: the credential registry's get-or-create returns the same underlying
store for the same host, never shares a store between two distinct hosts,
and the insert-if-absent step (one indivisible operation in the DashMap
entry API) preserves at-most-one-store-per-host over any access sequence. -/
theorem registry_get_or_create_spec (r : Registry) (h1 h2 : String)
    (hwf : r.wf) :
    (get_or_create_jar (get_or_create_jar r h1).2 h1).1 =
      (get_or_create_jar r h1).1 ∧
    (h1 ≠ h2 →
      (get_or_create_jar (get_or_create_jar r h1).2 h2).1 ≠
        (get_or_create_jar r h1).1) ∧
    (get_or_create_jar r h1).2.wf ∧
    (∀ ops : List String, (run_registry ops).wf) :=
  ⟨get_or_create_jar_same_host r h1,
   fun hne => get_or_create_jar_distinct_hosts r h1 h2 hwf hne,
   wf_get_or_create_jar r h1 hwf,
   wf_run_registry⟩

/-- Witness for C8 at a concrete registry and hosts. -/
theorem registry_get_or_create_spec_witness :
    (get_or_create_jar (get_or_create_jar R0 "a").2 "a").1 =
      (get_or_create_jar R0 "a").1 ∧
    (get_or_create_jar (get_or_create_jar R0 "a").2 "b").1 ≠
      (get_or_create_jar R0 "a").1 ∧
    (get_or_create_jar R0 "a").2.wf ∧
    (run_registry ["a", "b", "a"]).wf :=
  ⟨(registry_get_or_create_spec R0 "a" "b" (by decide)).1,
   (registry_get_or_create_spec R0 "a" "b" (by decide)).2.1 (by decide),
   (registry_get_or_create_spec R0 "a" "b" (by decide)).2.2.1,
   (registry_get_or_create_spec R0 "a" "b" (by decide)).2.2.2 ["a", "b", "a"]⟩

/-- C9 counterexample: at a concrete challenge, result and redirect URL the
CLI produces a different submission URL than the shared library used by the
proxy, because the CLI interpolates the redirect URL without
percent-encoding it. -/
theorem cli_proxy_submission_url_differ_cex :
    cli_submission_url "https" "ex" cFastId rPow "https://e/p" 7 ≠
      build_submission_url "https" "ex" cFastId rPow "https://e/p" 7 := by
  decide


/-- The search fails only with the fixed message of lib.rs line 358. -/
theorem solve_native_error_msg (sha256 : String → List Nat) (W : Nat)
    (c : AnubisChallenge) (msg : String)
    (herr : solve_challenge_native sha256 W c = .error msg) :
    msg = "Solver finished without finding a solution." := by
  unfold solve_challenge_native at herr
  cases hfs : (List.range W).findSome?
      (fun k => workerLoop sha256 c.challenge.random_data c.rules.difficulty W
        (k % (U64_MAX + 1)) (U64_MAX + 1)) with
  | some n =>
    rw [hfs] at herr
    cases herr
  | none =>
    rw [hfs] at herr
    injection herr with h
    exact h.symm

/-- The unsupported-algorithm message of main.rs never coincides with the
exhaustion message of lib.rs: the two begin with different characters. -/
theorem unsupported_msg_ne (s : String) :
    "Unsupported algorithm: " ++ s ≠
      "Solver finished without finding a solution." := by
  intro h
  have hd := congrArg (fun t : String => t.data.head?) h
  have h2 : some 'U' = some 'S' := hd
  exact absurd h2 (by decide)

/-- C9 amended: the proxy caller goes through the shared library functions,
but the CLI caller reimplements the orchestration and the two are not
identical. When the declared algorithm is one of preact, metarefresh, fast
or slow, the challenge id is present, and the redirect URL is unchanged by
percent-encoding, the CLI produces the same submission URL and the same
solver dispatch as the library. The CLI diverges otherwise: for any declared
algorithm outside those four it fails with an Unsupported algorithm error
while the library dispatches to the proof-of-work search, so the two
outcomes always differ; and when the id is absent, the other conditions
unchanged, the CLI URL always differs from the library URL by a dangling
id parameter. -/
theorem cli_proxy_agreement (sha256 : String → List Nat) (W : Nat)
    (scheme host : String) (c : AnubisChallenge) (result : SolverResult)
    (redir : String) (elapsed_ms : Nat) :
    (∀ i, (c.rules.algorithm = "preact" ∨ c.rules.algorithm = "metarefresh" ∨
        c.rules.algorithm = "fast" ∨ c.rules.algorithm = "slow") →
      c.challenge.id = some i → urlencode redir = redir →
      cli_submission_url scheme host c result redir elapsed_ms =
        build_submission_url scheme host c result redir elapsed_ms ∧
      cli_solve sha256 W c = solve_challenge sha256 W c) ∧
    (c.rules.algorithm ≠ "preact" → c.rules.algorithm ≠ "metarefresh" →
      c.rules.algorithm ≠ "fast" → c.rules.algorithm ≠ "slow" →
      cli_solve sha256 W c =
        .error ("Unsupported algorithm: " ++ c.rules.algorithm) ∧
      solve_challenge sha256 W c = solve_challenge_native sha256 W c ∧
      cli_solve sha256 W c ≠ solve_challenge sha256 W c) ∧
    ((c.rules.algorithm = "preact" ∨ c.rules.algorithm = "metarefresh" ∨
        c.rules.algorithm = "fast" ∨ c.rules.algorithm = "slow") →
      c.challenge.id = none → urlencode redir = redir →
      cli_submission_url scheme host c result redir elapsed_ms ≠
        build_submission_url scheme host c result redir elapsed_ms) := by
  refine ⟨?_, ?_, ?_⟩
  · intro i halg hid hredir
    have hne : c.rules.algorithm ≠ "" := by
      rcases halg with h | h | h | h <;> simp [h]
    have heff : c.algorithm = c.rules.algorithm := by
      unfold AnubisChallenge.algorithm
      rw [if_neg hne]
    have hidp : c.id_param = "&id=" ++ i := by
      unfold AnubisChallenge.id_param
      rw [hid]
    have hgetd : c.challenge.id.getD "" = i := by
      rw [hid]
      rfl
    constructor
    · unfold cli_submission_url build_submission_url
      rw [heff, hredir, hidp, hgetd]
      rcases halg with h | h | h | h <;> rw [h] <;> simp [String.append_assoc]
    · unfold cli_solve solve_challenge
      rw [heff]
      rcases halg with h | h | h | h <;> rw [h] <;> simp
  · intro h1 h2 h3 h4
    have hcli : cli_solve sha256 W c =
        .error ("Unsupported algorithm: " ++ c.rules.algorithm) := by
      unfold cli_solve
      rw [if_neg h1, if_neg h2, if_neg (by simp [h3, h4])]
    have heff1 : c.algorithm ≠ "preact" := by
      unfold AnubisChallenge.algorithm
      by_cases he : c.rules.algorithm = ""
      · rw [if_pos he]
        decide
      · rw [if_neg he]
        exact h1
    have heff2 : c.algorithm ≠ "metarefresh" := by
      unfold AnubisChallenge.algorithm
      by_cases he : c.rules.algorithm = ""
      · rw [if_pos he]
        decide
      · rw [if_neg he]
        exact h2
    have hlib : solve_challenge sha256 W c = solve_challenge_native sha256 W c := by
      unfold solve_challenge
      rw [if_neg heff1, if_neg heff2]
    refine ⟨hcli, hlib, ?_⟩
    rw [hcli, hlib]
    cases hres : solve_challenge_native sha256 W c with
    | ok res => simp
    | error msg =>
      have hmsg := solve_native_error_msg sha256 W c msg hres
      rw [hmsg]
      intro heq
      injection heq with heq2
      exact unsupported_msg_ne c.rules.algorithm heq2
  · intro halg hidn hredir
    have hne : c.rules.algorithm ≠ "" := by
      rcases halg with h | h | h | h <;> simp [h]
    have heff : c.algorithm = c.rules.algorithm := by
      unfold AnubisChallenge.algorithm
      rw [if_neg hne]
    have hidp0 : c.id_param = "" := by
      unfold AnubisChallenge.id_param
      rw [hidn]
    have hgetd0 : c.challenge.id.getD "" = "" := by
      rw [hidn]
      rfl
    have hlen4 : ("&id=" : String).length = 4 := rfl
    have hlen0 : ("" : String).length = 0 := rfl
    unfold cli_submission_url build_submission_url
    rw [heff, hredir, hidp0, hgetd0]
    rcases halg with h | h | h | h
    · rw [h, if_pos rfl, if_pos rfl]
      intro heq
      have hlen := congrArg String.length heq
      simp only [String.length_append] at hlen
      rw [hlen4, hlen0] at hlen
      omega
    · rw [h, if_neg (by decide), if_pos rfl, if_neg (by decide), if_pos rfl]
      intro heq
      have hlen := congrArg String.length heq
      simp only [String.length_append] at hlen
      rw [hlen4, hlen0] at hlen
      omega
    · rw [h, if_neg (by decide), if_neg (by decide), if_neg (by decide),
        if_neg (by decide)]
      intro heq
      have hlen := congrArg String.length heq
      simp only [String.length_append] at hlen
      rw [hlen4, hlen0] at hlen
      omega
    · rw [h, if_neg (by decide), if_neg (by decide), if_neg (by decide),
        if_neg (by decide)]
      intro heq
      have hlen := congrArg String.length heq
      simp only [String.length_append] at hlen
      rw [hlen4, hlen0] at hlen
      omega

/-- Witness for C9 amended: agreement at a fast challenge with an id and an
encoding-invariant redirect URL; divergent outcomes at an unsupported
algorithm; divergent URLs when the id is absent. -/
theorem cli_proxy_agreement_witness :
    (cli_submission_url "https" "ex" cFastId rPow "abc" 7 =
        build_submission_url "https" "ex" cFastId rPow "abc" 7 ∧
      cli_solve shaZero 1 cFastId = solve_challenge shaZero 1 cFastId) ∧
    (cli_solve shaZero 1 cUnknown =
        .error ("Unsupported algorithm: " ++ "weird") ∧
      solve_challenge shaZero 1 cUnknown = solve_challenge_native shaZero 1 cUnknown ∧
      cli_solve shaZero 1 cUnknown ≠ solve_challenge shaZero 1 cUnknown) ∧
    cli_submission_url "https" "ex" cPow rPow "abc" 7 ≠
      build_submission_url "https" "ex" cPow rPow "abc" 7 :=
  ⟨(cli_proxy_agreement shaZero 1 "https" "ex" cFastId rPow "abc" 7).1 "x"
      (by decide) rfl (by decide),
   (cli_proxy_agreement shaZero 1 "https" "ex" cUnknown rPow "abc" 7).2.1
      (by decide) (by decide) (by decide) (by decide),
   (cli_proxy_agreement shaZero 1 "https" "ex" cPow rPow "abc" 7).2.2
      (by decide) rfl (by decide)⟩
